import Mathlib

/-!
Verification of the Lake Omapere constructed-wetland (CW) load-accounting and
routing pipeline.

Shallow embedding of the Python analysis scripts over exact rationals:
* `Analysis_Scripts/lake_omapere_cw_analysis_PHASE2_with_comparison.py`
  (coverage categories, LRF lookup, pathway distribution, per-reach scenario
  computation, inner merge of the CLUES table with the CW coverage table),
* `Analysis_Scripts/lake_omapere_cw_analysis.py`
  (`categorize_coverage`, `route_loads`, `route_loads_advanced`,
  `Config.DEFAULT_ATTENUATION`),
* `Analysis_Scripts/lake_omapere_routing.py`
  (module-level baseline routing loop of STEP 4 and the
  `RoutedReduction_Pct` computation of STEP 6),
* `Analysis_Scripts/lake_omapere_complete_analysis.py` (`apply_cw_mitigation`).

Pandas floating-point cells are modelled as `ℚ`; the only place where IEEE
special values matter for the properties below (division by an exactly zero
baseline) is modelled explicitly by the `PdVal` type.
-/

/-- `Config.BANK_EROSION_PERCENT` in the PHASE2 script: 50% of each P-fraction
load is bank erosion and bypasses CW treatment. -/
def BANK_EROSION_PERCENT : ℚ := 50

/-- `Config.AG_THRESHOLD` in the PHASE2 script. -/
def AG_THRESHOLD : ℚ := 25

/-- `Config.DEFAULT_ATTENUATION` in `lake_omapere_cw_analysis.py` (0.90). -/
def DEFAULT_ATTENUATION : ℚ := 9 / 10

/-- `assign_coverage_category` from the PHASE2 script: `< 2` is SMALL
(ExtCode 1), `<= 4` is MEDIUM (ExtCode 2), otherwise LARGE (ExtCode 3). -/
def assign_coverage_category (coverage_percent : ℚ) : String × ℕ :=
  if coverage_percent < 2 then ("SMALL", 1)
  else if coverage_percent ≤ 4 then ("MEDIUM", 2)
  else ("LARGE", 3)

/-- `CWMitigationCalculator.categorize_coverage` from
`lake_omapere_cw_analysis.py`, with `Config.COVERAGE_THRESHOLDS`
`low = 2.0`, `medium = 4.0`: `>= 4` is high, `>= 2` is medium, `> 0` is low,
otherwise none. -/
def categorize_coverage (coverage_percent : ℚ) : String :=
  if coverage_percent ≥ 4 then "high"
  else if coverage_percent ≥ 2 then "medium"
  else if coverage_percent > 0 then "low"
  else "none"

/-- Ordinal position of a `categorize_coverage` result, aligning the two
scripts' category scales for comparison: low ↔ SMALL ↔ 1,
medium ↔ MEDIUM ↔ 2, high ↔ LARGE ↔ 3; the extra `none` bucket gets 0. -/
def coverage_ordinal (cat : String) : ℕ :=
  if cat = "low" then 1
  else if cat = "medium" then 2
  else if cat = "high" then 3
  else 0

/-- `apply_ag_filter` from the PHASE2 script: when `ag_percent < 25` the
available load is scaled by `ag_percent / 100`, otherwise it is the full
CLUES load; the Boolean records whether the filter fired. -/
def apply_ag_filter (total_clues_tp ag_percent : ℚ) : ℚ × Bool :=
  if ag_percent < AG_THRESHOLD then (total_clues_tp * (ag_percent / 100), true)
  else (total_clues_tp, false)

/-- The fixed P-fraction splits of `load_p_fraction_splits` in the PHASE2
script: PartP 50%, DRP 25%, DOP 25%. -/
def p_split (p_fraction_name : String) : ℚ :=
  if p_fraction_name = "PartP" then 50 else 25

/-- `split_p_fractions` from the PHASE2 script, one fraction at a time. -/
def split_p_fractions (available_load : ℚ) (p_fraction_name : String) : ℚ :=
  available_load * (p_split p_fraction_name / 100)

/-- `split_bank_erosion` from the PHASE2 script: (bank share, hillslope
share). -/
def split_bank_erosion (p_fraction_load : ℚ) : ℚ × ℚ :=
  (p_fraction_load * (BANK_EROSION_PERCENT / 100),
   p_fraction_load * ((100 - BANK_EROSION_PERCENT) / 100))

/-- Per-reach HYPE pathway values (also used for per-pathway loads):
surface runoff, tile drainage, interflow, shallow groundwater, deep
groundwater. -/
structure PathwayLoads where
  SR : ℚ
  TD : ℚ
  IF : ℚ
  SG : ℚ
  DG : ℚ
deriving DecidableEq, Repr

/-- `distribute_by_pathways_PHASE2` from the PHASE2 script: PartP sends the
whole hillslope load to SR and zero elsewhere; DRP and DOP scale the
hillslope load by the reach's HYPE pathway fractions. -/
def distribute_by_pathways_PHASE2 (hillslope_load : ℚ) (p_fraction_name : String)
    (hype_pathways : PathwayLoads) : PathwayLoads :=
  if p_fraction_name = "PartP" then
    ⟨hillslope_load * 1, 0, 0, 0, 0⟩
  else
    ⟨hillslope_load * hype_pathways.SR, hillslope_load * hype_pathways.TD,
     hillslope_load * hype_pathways.IF, hillslope_load * hype_pathways.SG,
     hillslope_load * hype_pathways.DG⟩

/-- One row of the LRF lookup table loaded by `load_lrfs` (`ExtCode`,
`Pathway`, and the median % remaining for each P fraction). -/
structure LRFEntry where
  ExtCode : ℕ
  Pathway : String
  PartP : ℚ
  DRP : ℚ
  DOP : ℚ
deriving DecidableEq, Repr

/-- Column selection `lrf_row.iloc[0][p_fraction_name]` on an LRF row. -/
def lrf_value (e : LRFEntry) (p_fraction_name : String) : ℚ :=
  if p_fraction_name = "PartP" then e.PartP
  else if p_fraction_name = "DRP" then e.DRP
  else e.DOP

/-- `apply_lrf` from the PHASE2 script. Clay above 50% short-circuits to
zero removal; a missing `(ExtCode, Pathway)` lookup also yields zero
removal; otherwise the looked-up percentage-remaining is applied.
`List.find?` models the pandas row filter followed by `iloc[0]`. -/
def apply_lrf (pathway_load : ℚ) (p_fraction_name pathway_name : String)
    (extcode : ℕ) (lrf_data : List LRFEntry) (clay_percent : ℚ) : ℚ × ℚ :=
  if clay_percent > 50 then (0, pathway_load)
  else
    match lrf_data.find? (fun e => e.ExtCode == extcode && e.Pathway == pathway_name) with
    | none => (0, pathway_load)
    | some e =>
      let lrf_percent := lrf_value e p_fraction_name
      (pathway_load * ((100 - lrf_percent) / 100), pathway_load * (lrf_percent / 100))

/-- `apply_cw_mitigation` from `lake_omapere_complete_analysis.py`: returns
`(TP_Wetland_WithCW_tpy, CW_Removal_Pct, CW_Category)`. The high-clay flag
(`HighClay_Over50Pct`, precomputed as clay % > 50) forces zero removal; a
missing or zero coverage gives no CW; otherwise banded removal factors
0.20 / 0.35 / 0.50 apply. -/
def apply_cw_mitigation (highClay_Over50Pct : Bool) (combined_percent : Option ℚ)
    (tp_wetland : ℚ) : ℚ × ℚ × String :=
  if highClay_Over50Pct then (tp_wetland, 0, "HighClay_ZeroRemoval")
  else
    match combined_percent with
    | none => (tp_wetland, 0, "NoCW")
    | some cw_pct =>
      if cw_pct = 0 then (tp_wetland, 0, "NoCW")
      else if cw_pct < 2 then (tp_wetland * (1 - 20 / 100), (20 : ℚ) / 100 * 100, "LowCW_<2pct")
      else if cw_pct < 4 then (tp_wetland * (1 - 35 / 100), (35 : ℚ) / 100 * 100, "MediumCW_2-4pct")
      else (tp_wetland * (1 - 50 / 100), (50 : ℚ) / 100 * 100, "HighCW_>4pct")

/-- C4: for PartP, `distribute_by_pathways_PHASE2` sends 100% of the
hillslope load to SR and exactly 0 to TD, IF, SG and DG, for every reach's
HYPE pathway percentages. -/
theorem partp_surface_only (hillslope_load : ℚ) (hype_pathways : PathwayLoads) :
    distribute_by_pathways_PHASE2 hillslope_load "PartP" hype_pathways =
      ⟨hillslope_load, 0, 0, 0, 0⟩ := by
  simp [distribute_by_pathways_PHASE2]

/-- C3: when clay percentage exceeds 50, `apply_lrf` removes exactly 0 for
every pathway and P fraction (the full pathway load remains), and
`apply_cw_mitigation` with the high-clay flag leaves the wetland load
unchanged with 0% removal, regardless of coverage. -/
theorem clay_override_zero_removal (pathway_load : ℚ) (p_fraction_name pathway_name : String)
    (extcode : ℕ) (lrf_data : List LRFEntry) (clay_percent : ℚ)
    (hclay : clay_percent > 50) (combined_percent : Option ℚ) (tp_wetland : ℚ) :
    apply_lrf pathway_load p_fraction_name pathway_name extcode lrf_data clay_percent
        = (0, pathway_load)
      ∧ apply_cw_mitigation true combined_percent tp_wetland
        = (tp_wetland, 0, "HighClay_ZeroRemoval") := by
  constructor
  · simp [apply_lrf, hclay]
  · simp [apply_cw_mitigation]

/-- Witness for C3 at a concrete input. -/
theorem clay_override_zero_removal_witness :
    (60 : ℚ) > 50 ∧
      (apply_lrf 7 "PartP" "SR" 3 [⟨3, "SR", 52, 48, 48⟩] 60 = (0, 7)
        ∧ apply_cw_mitigation true (some 5) 3 = (3, 0, "HighClay_ZeroRemoval")) :=
  ⟨by norm_num,
   clay_override_zero_removal 7 "PartP" "SR" 3 [⟨3, "SR", 52, 48, 48⟩] 60 (by norm_num)
     (some 5) 3⟩

/-- C6 counterexample: the two coverage classifiers disagree at exactly 4.0
(MEDIUM / ExtCode 2 versus high / ordinal 3) and at 0 (SMALL / ExtCode 1
versus none / ordinal 0). -/
theorem coverage_category_mismatch :
    ((assign_coverage_category 4).2 = 2
        ∧ coverage_ordinal (categorize_coverage 4) = 3
        ∧ (2 : ℕ) ≠ 3)
      ∧ ((assign_coverage_category 0).2 = 1
        ∧ coverage_ordinal (categorize_coverage 0) = 0
        ∧ (1 : ℕ) ≠ 0) := by
  refine ⟨⟨?_, ?_, by decide⟩, ⟨?_, ?_, by decide⟩⟩ <;>
    norm_num [assign_coverage_category, categorize_coverage, coverage_ordinal] <;> decide

/-- C6 amended: away from the boundary slips — for every coverage
percentage that is positive and not exactly 4.0 — the two classifiers
assign the same ordered category (ExtCode of `assign_coverage_category`
equals the ordinal of `categorize_coverage`); at exactly 2.0 both give the
middle category. -/
theorem coverage_category_agree (p : ℚ) (hpos : 0 < p) (hne : p ≠ 4) :
    (assign_coverage_category p).2 = coverage_ordinal (categorize_coverage p) := by
  unfold assign_coverage_category categorize_coverage coverage_ordinal
  rcases lt_or_le p 2 with h2 | h2
  · have h4 : ¬ p ≥ 4 := by linarith
    have h2' : ¬ p ≥ 2 := by linarith
    simp [h2, h4, h2', hpos]
  · rcases lt_or_le p 4 with h4 | h4
    · have : ¬ p < 2 := by linarith
      have h4' : ¬ p ≥ 4 := by linarith
      have hle : p ≤ 4 := le_of_lt h4
      simp [this, h4', h2, hle]
    · have h4' : 4 < p := lt_of_le_of_ne h4 (fun h => hne h.symm)
      have : ¬ p < 2 := by linarith
      have hle : ¬ p ≤ 4 := by linarith
      simp [this, hle, h4]

/-- Witness for C6 amended at coverage 2.0 (a threshold boundary). -/
theorem coverage_category_agree_witness :
    (0 : ℚ) < 2 ∧ (2 : ℚ) ≠ 4 ∧
      (assign_coverage_category 2).2 = coverage_ordinal (categorize_coverage 2) :=
  ⟨by norm_num, by norm_num, coverage_category_agree 2 (by norm_num) (by norm_num)⟩

/-- One merged input row of the PHASE2 `all_data` table, as consumed by the
per-reach loop body of `run_analysis_for_scenario` (after the `fillna`
steps, so `Clay` and `PstreamCarry` are plain values). -/
structure ReachRow where
  Total_CLUES_TP : ℚ
  ag_percent : ℚ
  hype : PathwayLoads
  Clay : ℚ
  PstreamCarry : ℚ
deriving DecidableEq, Repr

/-- Remaining load of one pathway inside the P-fraction loop of
`run_analysis_for_scenario`: `apply_lrf` is called only when the pathway
load is positive, otherwise the remaining entry is set to 0. -/
def pathway_remaining (pathway_load : ℚ) (p_fraction_name pathway_name : String)
    (extcode : ℕ) (lrf_data : List LRFEntry) (clay_percent : ℚ) : ℚ :=
  if pathway_load > 0 then
    (apply_lrf pathway_load p_fraction_name pathway_name extcode lrf_data clay_percent).2
  else 0

/-- With-CW load of one P fraction (`p_with_cw = bank_erosion +
p_remaining_pathways` in `run_analysis_for_scenario`). -/
def fraction_with_cw (p_load : ℚ) (p_fraction_name : String) (hype_pathways : PathwayLoads)
    (extcode : ℕ) (lrf_data : List LRFEntry) (clay_percent : ℚ) : ℚ :=
  let bank := (split_bank_erosion p_load).1
  let hillslope := (split_bank_erosion p_load).2
  let pls := distribute_by_pathways_PHASE2 hillslope p_fraction_name hype_pathways
  bank +
    (pathway_remaining pls.SR p_fraction_name "SR" extcode lrf_data clay_percent +
     pathway_remaining pls.TD p_fraction_name "TD" extcode lrf_data clay_percent +
     pathway_remaining pls.IF p_fraction_name "IF" extcode lrf_data clay_percent +
     pathway_remaining pls.SG p_fraction_name "SG" extcode lrf_data clay_percent +
     pathway_remaining pls.DG p_fraction_name "DG" extcode lrf_data clay_percent)

/-- The per-reach output fields of `run_analysis_for_scenario` needed for
the monotonicity and percentage-safety properties. -/
structure ScenarioReachResult where
  generated_baseline : ℚ
  generated_with_cw : ℚ
  cw_reduction_percent : ℚ
  routed_baseline : ℚ
  routed_with_cw : ℚ
  routed_reduction_percent : ℚ
deriving DecidableEq, Repr

/-- Loop body of `run_analysis_for_scenario` in the PHASE2 script for one
reach: ag filter, P-fraction split, coverage category, per-fraction CW
mitigation, totals, guarded reduction percentages, and single-factor
stream attenuation (`routed = total × PstreamCarry`). -/
def run_analysis_for_scenario (row : ReachRow) (cw_coverage : ℚ)
    (lrf_data : List LRFEntry) : ScenarioReachResult :=
  let available_load := (apply_ag_filter row.Total_CLUES_TP row.ag_percent).1
  let extcode := (assign_coverage_category cw_coverage).2
  let total_baseline :=
    split_p_fractions available_load "PartP" + split_p_fractions available_load "DRP" +
      split_p_fractions available_load "DOP"
  let total_with_cw :=
    fraction_with_cw (split_p_fractions available_load "PartP") "PartP" row.hype extcode
        lrf_data row.Clay +
      fraction_with_cw (split_p_fractions available_load "DRP") "DRP" row.hype extcode
        lrf_data row.Clay +
      fraction_with_cw (split_p_fractions available_load "DOP") "DOP" row.hype extcode
        lrf_data row.Clay
  let cw_reduction_percent :=
    if total_baseline > 0 then (total_baseline - total_with_cw) / total_baseline * 100 else 0
  let routed_baseline := total_baseline * row.PstreamCarry
  let routed_with_cw := total_with_cw * row.PstreamCarry
  let routed_reduction_percent :=
    if routed_baseline > 0 then (routed_baseline - routed_with_cw) / routed_baseline * 100
    else 0
  ⟨total_baseline, total_with_cw, cw_reduction_percent, routed_baseline, routed_with_cw,
    routed_reduction_percent⟩

/-- All three percentage-remaining columns of an LRF row lie in [0, 100]. -/
def LRFInRange (e : LRFEntry) : Prop :=
  0 ≤ e.PartP ∧ e.PartP ≤ 100 ∧ 0 ≤ e.DRP ∧ e.DRP ≤ 100 ∧ 0 ≤ e.DOP ∧ e.DOP ≤ 100

instance : DecidablePred LRFInRange := fun e => by unfold LRFInRange; infer_instance

lemma lrf_value_mem_range (e : LRFEntry) (n : String) (h : LRFInRange e) :
    0 ≤ lrf_value e n ∧ lrf_value e n ≤ 100 := by
  obtain ⟨h1, h2, h3, h4, h5, h6⟩ := h
  unfold lrf_value
  split_ifs <;> exact ⟨by assumption, by assumption⟩

lemma apply_lrf_remaining_bounds (pathway_load : ℚ) (n pw : String) (ec : ℕ)
    (lrf_data : List LRFEntry) (clay : ℚ) (hpl : 0 ≤ pathway_load)
    (hrange : ∀ e ∈ lrf_data, LRFInRange e) :
    0 ≤ (apply_lrf pathway_load n pw ec lrf_data clay).2 ∧
      (apply_lrf pathway_load n pw ec lrf_data clay).2 ≤ pathway_load := by
  unfold apply_lrf
  split_ifs with hclay
  · exact ⟨hpl, le_refl _⟩
  · cases hfind : lrf_data.find? (fun e => e.ExtCode == ec && e.Pathway == pw) with
    | none => exact ⟨hpl, le_refl _⟩
    | some e =>
      have hmem : e ∈ lrf_data := List.mem_of_find?_eq_some hfind
      obtain ⟨hv0, hv100⟩ := lrf_value_mem_range e n (hrange e hmem)
      constructor
      · positivity
      · nlinarith

lemma pathway_remaining_bounds (pathway_load : ℚ) (n pw : String) (ec : ℕ)
    (lrf_data : List LRFEntry) (clay : ℚ) (hpl : 0 ≤ pathway_load)
    (hrange : ∀ e ∈ lrf_data, LRFInRange e) :
    0 ≤ pathway_remaining pathway_load n pw ec lrf_data clay ∧
      pathway_remaining pathway_load n pw ec lrf_data clay ≤ pathway_load := by
  unfold pathway_remaining
  split_ifs with hpos
  · exact apply_lrf_remaining_bounds pathway_load n pw ec lrf_data clay hpl hrange
  · exact ⟨le_refl 0, hpl⟩

lemma fraction_with_cw_le (p_load : ℚ) (n : String) (hype : PathwayLoads) (ec : ℕ)
    (lrf_data : List LRFEntry) (clay : ℚ) (hp : 0 ≤ p_load)
    (hSR : 0 ≤ hype.SR) (hTD : 0 ≤ hype.TD) (hIF : 0 ≤ hype.IF) (hSG : 0 ≤ hype.SG)
    (hDG : 0 ≤ hype.DG) (hsum : hype.SR + hype.TD + hype.IF + hype.SG + hype.DG = 1)
    (hrange : ∀ e ∈ lrf_data, LRFInRange e) :
    fraction_with_cw p_load n hype ec lrf_data clay ≤ p_load := by
  unfold fraction_with_cw split_bank_erosion distribute_by_pathways_PHASE2
  have hhill : (0 : ℚ) ≤ p_load * ((100 - BANK_EROSION_PERCENT) / 100) := by
    unfold BANK_EROSION_PERCENT; positivity
  set hill := p_load * ((100 - BANK_EROSION_PERCENT) / 100) with hhilldef
  split_ifs with hpart
  · simp only
    obtain ⟨ha0, ha1⟩ :=
      pathway_remaining_bounds (hill * 1) n "SR" ec lrf_data clay (by linarith) hrange
    obtain ⟨hb0, hb1⟩ := pathway_remaining_bounds 0 n "TD" ec lrf_data clay le_rfl hrange
    obtain ⟨hc0, hc1⟩ := pathway_remaining_bounds 0 n "IF" ec lrf_data clay le_rfl hrange
    obtain ⟨hd0, hd1⟩ := pathway_remaining_bounds 0 n "SG" ec lrf_data clay le_rfl hrange
    obtain ⟨he0, he1⟩ := pathway_remaining_bounds 0 n "DG" ec lrf_data clay le_rfl hrange
    unfold BANK_EROSION_PERCENT at *
    nlinarith
  · simp only
    obtain ⟨ha0, ha1⟩ := pathway_remaining_bounds (hill * hype.SR) n "SR" ec lrf_data clay
      (by positivity) hrange
    obtain ⟨hb0, hb1⟩ := pathway_remaining_bounds (hill * hype.TD) n "TD" ec lrf_data clay
      (by positivity) hrange
    obtain ⟨hc0, hc1⟩ := pathway_remaining_bounds (hill * hype.IF) n "IF" ec lrf_data clay
      (by positivity) hrange
    obtain ⟨hd0, hd1⟩ := pathway_remaining_bounds (hill * hype.SG) n "SG" ec lrf_data clay
      (by positivity) hrange
    obtain ⟨he0, he1⟩ := pathway_remaining_bounds (hill * hype.DG) n "DG" ec lrf_data clay
      (by positivity) hrange
    have hsum' : hill * hype.SR + hill * hype.TD + hill * hype.IF + hill * hype.SG +
        hill * hype.DG = hill := by
      rw [← mul_add, ← mul_add, ← mul_add, ← mul_add, hsum, mul_one]
    unfold BANK_EROSION_PERCENT at *
    nlinarith

lemma apply_ag_filter_nonneg (total ag : ℚ) (h1 : 0 ≤ total) (h2 : 0 ≤ ag) :
    0 ≤ (apply_ag_filter total ag).1 := by
  unfold apply_ag_filter
  split_ifs <;> [positivity; exact h1]

/-- C7: under nonnegative inputs, HYPE pathway fractions summing to 1 and
LRF table entries in [0, 100], the with-CW generated load never exceeds
the baseline generated load and (for nonnegative attenuation) the with-CW
routed load never exceeds the baseline routed load. The inequalities are
exact over ℚ, hence hold a fortiori with the −1e-6 tolerance. -/
theorem no_over_reduction (row : ReachRow) (cw_coverage : ℚ) (lrf_data : List LRFEntry)
    (h1 : 0 ≤ row.Total_CLUES_TP) (h2 : 0 ≤ row.ag_percent)
    (hSR : 0 ≤ row.hype.SR) (hTD : 0 ≤ row.hype.TD) (hIF : 0 ≤ row.hype.IF)
    (hSG : 0 ≤ row.hype.SG) (hDG : 0 ≤ row.hype.DG)
    (hsum : row.hype.SR + row.hype.TD + row.hype.IF + row.hype.SG + row.hype.DG = 1)
    (hrange : ∀ e ∈ lrf_data, LRFInRange e) (hpc : 0 ≤ row.PstreamCarry) :
    (run_analysis_for_scenario row cw_coverage lrf_data).generated_with_cw ≤
        (run_analysis_for_scenario row cw_coverage lrf_data).generated_baseline ∧
      (run_analysis_for_scenario row cw_coverage lrf_data).routed_with_cw ≤
        (run_analysis_for_scenario row cw_coverage lrf_data).routed_baseline := by
  have havail : 0 ≤ (apply_ag_filter row.Total_CLUES_TP row.ag_percent).1 :=
    apply_ag_filter_nonneg _ _ h1 h2
  set avail := (apply_ag_filter row.Total_CLUES_TP row.ag_percent).1 with havaildef
  have hsplit : ∀ n : String, 0 ≤ split_p_fractions avail n := by
    intro n
    unfold split_p_fractions p_split
    split_ifs <;> positivity
  have hgen : ∀ n : String,
      fraction_with_cw (split_p_fractions avail n) n row.hype
          (assign_coverage_category cw_coverage).2 lrf_data row.Clay ≤
        split_p_fractions avail n := fun n =>
    fraction_with_cw_le _ n row.hype _ lrf_data row.Clay (hsplit n) hSR hTD hIF hSG hDG
      hsum hrange
  have hmain : (run_analysis_for_scenario row cw_coverage lrf_data).generated_with_cw ≤
      (run_analysis_for_scenario row cw_coverage lrf_data).generated_baseline := by
    simp only [run_analysis_for_scenario]
    have := hgen "PartP"
    have := hgen "DRP"
    have := hgen "DOP"
    linarith
  refine ⟨hmain, ?_⟩
  simp only [run_analysis_for_scenario] at hmain ⊢
  exact mul_le_mul_of_nonneg_right hmain hpc

/-- Witness for C7 on a concrete reach. -/
theorem no_over_reduction_witness :
    ((0 : ℚ) ≤ 100 ∧ (0 : ℚ) ≤ 30 ∧
      (3 : ℚ)/10 + 2/10 + 2/10 + 2/10 + 1/10 = 1 ∧
      (∀ e ∈ [(⟨2, "SR", 58, 58, 58⟩ : LRFEntry), ⟨2, "TD", 100, 100, 100⟩], LRFInRange e) ∧
      (0 : ℚ) ≤ 4/5) ∧
    ((run_analysis_for_scenario ⟨100, 30, ⟨3/10, 2/10, 2/10, 2/10, 1/10⟩, 10, 4/5⟩ 3
          [⟨2, "SR", 58, 58, 58⟩, ⟨2, "TD", 100, 100, 100⟩]).generated_with_cw ≤
        (run_analysis_for_scenario ⟨100, 30, ⟨3/10, 2/10, 2/10, 2/10, 1/10⟩, 10, 4/5⟩ 3
          [⟨2, "SR", 58, 58, 58⟩, ⟨2, "TD", 100, 100, 100⟩]).generated_baseline ∧
      (run_analysis_for_scenario ⟨100, 30, ⟨3/10, 2/10, 2/10, 2/10, 1/10⟩, 10, 4/5⟩ 3
          [⟨2, "SR", 58, 58, 58⟩, ⟨2, "TD", 100, 100, 100⟩]).routed_with_cw ≤
        (run_analysis_for_scenario ⟨100, 30, ⟨3/10, 2/10, 2/10, 2/10, 1/10⟩, 10, 4/5⟩ 3
          [⟨2, "SR", 58, 58, 58⟩, ⟨2, "TD", 100, 100, 100⟩]).routed_baseline) :=
  ⟨⟨by norm_num, by norm_num, by norm_num, by decide, by norm_num⟩,
   no_over_reduction ⟨100, 30, ⟨3/10, 2/10, 2/10, 2/10, 1/10⟩, 10, 4/5⟩ 3
     [⟨2, "SR", 58, 58, 58⟩, ⟨2, "TD", 100, 100, 100⟩]
     (by norm_num) (by norm_num) (by norm_num) (by norm_num) (by norm_num) (by norm_num)
     (by norm_num) (by norm_num) (by decide) (by norm_num)⟩

/-- A pandas/numpy float cell as far as the zero-baseline division is
concerned: an exact value, ±infinity, or NaN. -/
inductive PdVal where
  | val : ℚ → PdVal
  | pinf : PdVal
  | ninf : PdVal
  | nan : PdVal
deriving DecidableEq, Repr

/-- Numpy division on finite operands: `x / 0` is `±inf` by the sign of
`x`, `0 / 0` is NaN, otherwise exact. -/
def pdDiv (x y : ℚ) : PdVal :=
  if y = 0 then (if x > 0 then .pinf else if x < 0 then .ninf else .nan)
  else .val (x / y)

/-- Multiplication of a pandas cell by the positive constant 100. -/
def pdMul100 : PdVal → PdVal
  | .val q => .val (q * 100)
  | .pinf => .pinf
  | .ninf => .ninf
  | .nan => .nan

/-- `.replace([np.inf, -np.inf], 0)`: both infinities become 0, NaN is left
untouched. -/
def replace_inf_zero : PdVal → PdVal
  | .pinf => .val 0
  | .ninf => .val 0
  | x => x

/-- `RoutedReduction_Pct` from STEP 6 of `lake_omapere_routing.py`:
`(TPRouted_baseline − TPRouted_wetland_withCW) / TPRouted_baseline * 100`
with `±inf` replaced by 0 (and nothing else replaced). -/
def RoutedReduction_Pct (tprouted_baseline tprouted_wetland_withCW : ℚ) : PdVal :=
  replace_inf_zero (pdMul100 (pdDiv (tprouted_baseline - tprouted_wetland_withCW)
    tprouted_baseline))

/-- C8 counterexample: in the routing script, a reach whose baseline routed
load is exactly 0 and whose with-CW routed load is also 0 gets a NaN
percentage reduction, not 0. -/
theorem routed_pct_nan_cex :
    RoutedReduction_Pct 0 0 = PdVal.nan ∧ PdVal.nan ≠ PdVal.val 0 := by
  constructor
  · norm_num [RoutedReduction_Pct, pdDiv, pdMul100, replace_inf_zero]
  · decide

/-- C8 amended: the PHASE2 per-reach computation reports 0% for a zero
baseline (routed and generated); the routing script's
`RoutedReduction_Pct` reports 0 for a zero baseline only when the with-CW
routed load is nonzero (the ±inf case), and NaN when it is also zero. -/
theorem zero_baseline_pct_defined (row : ReachRow) (cw_coverage : ℚ)
    (lrf_data : List LRFEntry) (b w : ℚ) :
    ((run_analysis_for_scenario row cw_coverage lrf_data).routed_baseline = 0 →
        (run_analysis_for_scenario row cw_coverage lrf_data).routed_reduction_percent = 0)
      ∧ ((run_analysis_for_scenario row cw_coverage lrf_data).generated_baseline = 0 →
        (run_analysis_for_scenario row cw_coverage lrf_data).cw_reduction_percent = 0)
      ∧ (b = 0 → w ≠ 0 → RoutedReduction_Pct b w = PdVal.val 0)
      ∧ (b = 0 → w = 0 → RoutedReduction_Pct b w = PdVal.nan) := by
  refine ⟨?_, ?_, ?_, ?_⟩
  · intro h
    simp only [run_analysis_for_scenario] at h ⊢
    simp only [h, lt_irrefl, gt_iff_lt, if_neg (lt_irrefl (0 : ℚ)).elim]
    norm_num
  · intro h
    simp only [run_analysis_for_scenario] at h ⊢
    simp only [h]
    norm_num
  · intro hb hw
    subst hb
    unfold RoutedReduction_Pct pdDiv
    split_ifs with h1 h2 h3
    · rfl
    · rfl
    · exact absurd (by linarith : w = 0) hw
    · exact absurd rfl h1
  · intro hb hw
    subst hb; subst hw
    norm_num [RoutedReduction_Pct, pdDiv, pdMul100, replace_inf_zero]

/-- Witness for C8 amended: a concrete reach row whose baseline is zero,
and the two concrete routing-script cases. -/
theorem zero_baseline_pct_defined_witness :
    ((run_analysis_for_scenario ⟨0, 30, ⟨1, 0, 0, 0, 0⟩, 10, 4/5⟩ 3 []).routed_baseline = 0
        → (run_analysis_for_scenario ⟨0, 30, ⟨1, 0, 0, 0, 0⟩, 10, 4/5⟩ 3
            []).routed_reduction_percent = 0)
      ∧ (RoutedReduction_Pct 0 3 = PdVal.val 0) := by
  refine ⟨?_, ?_⟩
  · exact (zero_baseline_pct_defined ⟨0, 30, ⟨1, 0, 0, 0, 0⟩, 10, 4/5⟩ 3 [] 0 3).1
  · exact (zero_baseline_pct_defined ⟨0, 30, ⟨1, 0, 0, 0, 0⟩, 10, 4/5⟩ 3 [] 0 3).2.2.1
      rfl (by norm_num)

/-- The `fillna(1.0)` applied to `PstreamCarry` in `main` of the PHASE2
script (a missing attenuation factor becomes 1.0). -/
def fillna_PstreamCarry (x : Option ℚ) : ℚ := x.getD 1

/-- The `fillna(Config.DEFAULT_ATTENUATION)` applied to `attenuation` in
`NetworkRouter.route_loads` (a missing attenuation factor becomes 0.90). -/
def fillna_attenuation (x : Option ℚ) : ℚ := x.getD DEFAULT_ATTENUATION

/-- C5 counterexample: in the PHASE2 pipeline a reach with a missing
attenuation factor gets the default 1.0, not the documented 0.90. -/
theorem missing_attenuation_default_cex :
    fillna_PstreamCarry none = 1 ∧ (1 : ℚ) ≠ DEFAULT_ATTENUATION := by
  constructor
  · rfl
  · unfold DEFAULT_ATTENUATION; norm_num

/-- C5 amended: defaults are applied without failing — a missing LRF lookup
yields zero removal (remaining = full load), a missing attenuation factor
becomes 1.0 in the PHASE2 `fillna` and `DEFAULT_ATTENUATION` = 0.90 in
`route_loads` — but the occurrences are applied silently (the functions
return plain values; no counter or run-summary report exists). -/
theorem missing_lookup_defaults (pathway_load : ℚ) (n pw : String) (ec : ℕ)
    (lrf_data : List LRFEntry) (clay : ℚ) (hclay : ¬ clay > 50)
    (hnone : lrf_data.find? (fun e => e.ExtCode == ec && e.Pathway == pw) = none) :
    apply_lrf pathway_load n pw ec lrf_data clay = (0, pathway_load)
      ∧ fillna_PstreamCarry none = 1
      ∧ fillna_attenuation none = DEFAULT_ATTENUATION := by
  refine ⟨?_, rfl, rfl⟩
  unfold apply_lrf
  rw [if_neg hclay, hnone]

/-- Witness for C5 amended on an empty LRF table. -/
theorem missing_lookup_defaults_witness :
    ¬ (10 : ℚ) > 50 ∧
      (apply_lrf 7 "DRP" "TD" 2 [] 10 = (0, 7)
        ∧ fillna_PstreamCarry none = 1
        ∧ fillna_attenuation none = DEFAULT_ATTENUATION) :=
  ⟨by norm_num, missing_lookup_defaults 7 "DRP" "TD" 2 [] 10 (by norm_num) rfl⟩

/-- `NetworkRouter.route_loads` from `lake_omapere_cw_analysis.py` (the
"simplified" router), per reach and scenario: with
`accumulation_factor = 1.0` the routed load is
`generated × (1 + 1.0 × attenuation)`, ignoring the network. -/
def route_loads (generated attenuation : ℚ) : ℚ :=
  generated * (1 + 1 * attenuation)

/-- Python `dict.get(k, d)` on an association list built from a DataFrame
column (first match wins, like a dict built by successive insertion with
unique keys). -/
def lookupQ (l : List (ℕ × ℚ)) (k : ℕ) (d : ℚ) : ℚ :=
  match l.find? (fun e => e.1 == k) with
  | some e => e.2
  | none => d

/-- `network[seg]` (the list of direct upstream reaches of `seg`), with
`[]` when `seg` is not a key — matching the `if seg in network` guard in
the routing loop. -/
def upsOf (net : List (ℕ × List ℕ)) (k : ℕ) : List ℕ :=
  match net.find? (fun e => e.1 == k) with
  | some e => e.2
  | none => []

/-- Loop state of the baseline routing loop in STEP 4 of
`lake_omapere_routing.py`: the set of already-processed segments (the keys
of `routed_dict`) and the routed values assigned so far. -/
structure RouteState where
  processed : List ℕ
  routed : ℕ → ℚ

/-- One iteration of the baseline routing loop: local generated load
(`tpgen_dict.get(seg, 0)`) plus, for every upstream segment already in
`routed_dict`, the upstream routed load times the **upstream** segment's
attenuation (`patten_dict.get(upstream_seg, 1.0)`). -/
def routeStep (net : List (ℕ × List ℕ)) (pat tpgen : List (ℕ × ℚ))
    (st : RouteState) (seg : ℕ) : RouteState :=
  let local_load := lookupQ tpgen seg 0
  let upstream_load :=
    (((upsOf net seg).filter (fun u => decide (u ∈ st.processed))).map
      (fun u => st.routed u * lookupQ pat u 1)).sum
  ⟨st.processed ++ [seg], fun x => if x = seg then local_load + upstream_load else st.routed x⟩

/-- The baseline routing loop of `lake_omapere_routing.py` STEP 4 (also the
two wetland-scenario loops of STEP 5, which differ only in the input
dictionaries): fold over the HYDSEQ-sorted segment order starting from an
empty `routed_dict`. -/
def route_loads_baseline (net : List (ℕ × List ℕ)) (pat tpgen : List (ℕ × ℚ))
    (order : List ℕ) : ℕ → ℚ :=
  (order.foldl (routeStep net pat tpgen) ⟨[], fun _ => 0⟩).routed

/-- One iteration of `NetworkRouter.route_loads_advanced` in
`lake_omapere_cw_analysis.py`: if the reach has an `upstream_map` entry,
add the contributions of upstream reaches that are keys of `routed_dict`
(the fixed reach-id set `D`), each multiplied by the **receiving** reach's
attenuation (`attenuation.get(reach_id, Config.DEFAULT_ATTENUATION)`). -/
def advStep (upstream_map : List (ℕ × List ℕ)) (attenuation : List (ℕ × ℚ))
    (D : List ℕ) (routed : ℕ → ℚ) (r : ℕ) : ℕ → ℚ :=
  match upstream_map.find? (fun e => e.1 == r) with
  | none => routed
  | some e =>
    let contrib :=
      ((e.2.filter (fun u => decide (u ∈ D))).map
        (fun u => routed u * lookupQ attenuation r DEFAULT_ATTENUATION)).sum
    fun x => if x = r then routed x + contrib else routed x

/-- `NetworkRouter.route_loads_advanced` for one scenario: `routed_dict`
starts as the generated loads of every reach and is updated in HYDSEQ
order. -/
def route_loads_advanced (upstream_map : List (ℕ × List ℕ)) (attenuation : List (ℕ × ℚ))
    (D : List ℕ) (generated : ℕ → ℚ) (order : List ℕ) : ℕ → ℚ :=
  order.foldl (advStep upstream_map attenuation D) generated

lemma filter_eq_nil_of_false {α : Type} (p : α → Bool) (l : List α)
    (h : ∀ a ∈ l, p a = false) : l.filter p = [] := by
  induction l with
  | nil => rfl
  | cons a t ih =>
    have ha := h a (List.mem_cons_self a t)
    simp only [List.filter_cons, ha, Bool.false_eq_true, if_false]
    exact ih fun b hb => h b (List.mem_cons_of_mem a hb)

lemma routeStep_routed_ne (net : List (ℕ × List ℕ)) (pat tpgen : List (ℕ × ℚ))
    (st : RouteState) (seg x : ℕ) (hx : x ≠ seg) :
    (routeStep net pat tpgen st seg).routed x = st.routed x := by
  simp [routeStep, hx]

lemma route_foldl_routed_notmem (net : List (ℕ × List ℕ)) (pat tpgen : List (ℕ × ℚ))
    (l : List ℕ) (st : RouteState) (x : ℕ) (hx : x ∉ l) :
    ((l.foldl (routeStep net pat tpgen) st).routed x = st.routed x) := by
  induction l generalizing st with
  | nil => rfl
  | cons a t ih =>
    have hxa : x ≠ a := fun h => hx (h ▸ List.mem_cons_self a t)
    have hxt : x ∉ t := fun h => hx (List.mem_cons_of_mem a h)
    simp only [List.foldl_cons]
    rw [ih _ hxt, routeStep_routed_ne net pat tpgen st a x hxa]

lemma route_foldl_processed (net : List (ℕ × List ℕ)) (pat tpgen : List (ℕ × ℚ))
    (l : List ℕ) (st : RouteState) :
    (l.foldl (routeStep net pat tpgen) st).processed = st.processed ++ l := by
  induction l generalizing st with
  | nil => simp
  | cons a t ih =>
    simp only [List.foldl_cons]
    rw [ih]
    simp [routeStep]

lemma route_loads_baseline_spec (net : List (ℕ × List ℕ)) (pat tpgen : List (ℕ × ℚ))
    (pre post : List ℕ) (r : ℕ) (hr2 : r ∉ post)
    (hups : ∀ u ∈ upsOf net r, u ∉ post ∧ u ≠ r) :
    route_loads_baseline net pat tpgen (pre ++ r :: post) r =
      lookupQ tpgen r 0 +
        (((upsOf net r).filter (fun u => decide (u ∈ pre))).map
          (fun u => route_loads_baseline net pat tpgen (pre ++ r :: post) u *
            lookupQ pat u 1)).sum := by
  unfold route_loads_baseline
  rw [List.foldl_append]
  set M := pre.foldl (routeStep net pat tpgen) ⟨[], fun _ => 0⟩ with hM
  have hMproc : M.processed = pre := by
    rw [hM, route_foldl_processed]
    exact List.nil_append pre
  simp only [List.foldl_cons]
  rw [route_foldl_routed_notmem net pat tpgen post _ r hr2]
  have hstep : (routeStep net pat tpgen M r).routed r =
      lookupQ tpgen r 0 +
        (((upsOf net r).filter (fun u => decide (u ∈ pre))).map
          (fun u => M.routed u * lookupQ pat u 1)).sum := by
    simp only [routeStep, hMproc, if_pos rfl, if_true]
  rw [hstep]
  congr 1
  apply congrArg
  apply List.map_congr_left
  intro u hu
  have humem : u ∈ upsOf net r := (List.mem_filter.mp hu).1
  obtain ⟨hupost, hune⟩ := hups u humem
  rw [route_foldl_routed_notmem net pat tpgen post _ u hupost,
    routeStep_routed_ne net pat tpgen M r u hune]

lemma advStep_ne (upstream_map : List (ℕ × List ℕ)) (attenuation : List (ℕ × ℚ))
    (D : List ℕ) (routed : ℕ → ℚ) (r x : ℕ) (hx : x ≠ r) :
    advStep upstream_map attenuation D routed r x = routed x := by
  unfold advStep
  cases hfind : upstream_map.find? (fun e => e.1 == r) with
  | none => rfl
  | some e => simp [hx]

lemma advStep_self (upstream_map : List (ℕ × List ℕ)) (attenuation : List (ℕ × ℚ))
    (D : List ℕ) (routed : ℕ → ℚ) (r : ℕ) :
    advStep upstream_map attenuation D routed r r =
      routed r + (((upsOf upstream_map r).filter (fun u => decide (u ∈ D))).map
        (fun u => routed u * lookupQ attenuation r DEFAULT_ATTENUATION)).sum := by
  unfold advStep upsOf
  cases hfind : upstream_map.find? (fun e => e.1 == r) with
  | none => simp
  | some e => simp

lemma adv_foldl_notmem (upstream_map : List (ℕ × List ℕ)) (attenuation : List (ℕ × ℚ))
    (D : List ℕ) (l : List ℕ) (routed : ℕ → ℚ) (x : ℕ) (hx : x ∉ l) :
    l.foldl (advStep upstream_map attenuation D) routed x = routed x := by
  induction l generalizing routed with
  | nil => rfl
  | cons a t ih =>
    have hxa : x ≠ a := fun h => hx (h ▸ List.mem_cons_self a t)
    have hxt : x ∉ t := fun h => hx (List.mem_cons_of_mem a h)
    simp only [List.foldl_cons]
    rw [ih _ hxt, advStep_ne upstream_map attenuation D routed a x hxa]

lemma route_loads_advanced_spec (upstream_map : List (ℕ × List ℕ))
    (attenuation : List (ℕ × ℚ)) (D : List ℕ) (generated : ℕ → ℚ)
    (pre post : List ℕ) (r : ℕ) (hr1 : r ∉ pre) (hr2 : r ∉ post)
    (hups : ∀ u ∈ upsOf upstream_map r, u ∉ post ∧ u ≠ r) :
    route_loads_advanced upstream_map attenuation D generated (pre ++ r :: post) r =
      generated r +
        (((upsOf upstream_map r).filter (fun u => decide (u ∈ D))).map
          (fun u => route_loads_advanced upstream_map attenuation D generated
            (pre ++ r :: post) u * lookupQ attenuation r DEFAULT_ATTENUATION)).sum := by
  unfold route_loads_advanced
  rw [List.foldl_append]
  set M := pre.foldl (advStep upstream_map attenuation D) generated with hM
  have hMr : M r = generated r := by
    rw [hM]
    exact adv_foldl_notmem upstream_map attenuation D pre generated r hr1
  simp only [List.foldl_cons]
  rw [adv_foldl_notmem upstream_map attenuation D post _ r hr2,
    advStep_self upstream_map attenuation D M r, hMr]
  congr 1
  apply congrArg
  apply List.map_congr_left
  intro u hu
  have humem : u ∈ upsOf upstream_map r := (List.mem_filter.mp hu).1
  obtain ⟨hupost, hune⟩ := hups u humem
  rw [adv_foldl_notmem upstream_map attenuation D post _ u hupost,
    advStep_ne upstream_map attenuation D M r u hune]

lemma advRoute_no_entry (upstream_map : List (ℕ × List ℕ)) (attenuation : List (ℕ × ℚ))
    (D : List ℕ) (r : ℕ) (hfind : upstream_map.find? (fun e => e.1 == r) = none)
    (order : List ℕ) :
    ∀ generated : ℕ → ℚ,
      route_loads_advanced upstream_map attenuation D generated order r = generated r := by
  induction order with
  | nil => intro generated; rfl
  | cons a t ih =>
    intro generated
    have hstep : advStep upstream_map attenuation D generated a r = generated r := by
      by_cases ha : r = a
      · subst ha
        unfold advStep
        rw [hfind]
      · exact advStep_ne upstream_map attenuation D generated a r ha
    calc route_loads_advanced upstream_map attenuation D generated (a :: t) r
        = route_loads_advanced upstream_map attenuation D
            (advStep upstream_map attenuation D generated a) t r := rfl
      _ = advStep upstream_map attenuation D generated a r := ih _
      _ = generated r := hstep

/-- C1 counterexample: a two-reach chain (reach 1 upstream of reach 2,
generated loads 10 and 5, attenuation 1/2 at reach 1 and 1/4 at reach 2),
processed in upstream-to-downstream order. The baseline routing loop gives
routed(2) = 10 — it multiplied reach 1's contribution by the **upstream**
factor 1/2 — whereas the claimed formula with the receiving reach's factor
would give 5 + 10 × (1/4). -/
theorem routing_receiving_attenuation_cex :
    route_loads_baseline [(2, [1])] [(1, 1/2), (2, 1/4)] [(1, 10), (2, 5)] [1, 2] 1 = 10
      ∧ route_loads_baseline [(2, [1])] [(1, 1/2), (2, 1/4)] [(1, 10), (2, 5)] [1, 2] 2 = 10
      ∧ (10 : ℚ) ≠ 5 + 10 * (1/4) := by
  refine ⟨?_, ?_, by norm_num⟩ <;>
    simp [route_loads_baseline, routeStep, lookupQ, upsOf, List.find?_cons_of_neg,
      List.find?_cons_of_pos] <;> norm_num

/-- C1 amended: in `route_loads_advanced` the routed load of a reach
processed after its upstream neighbours is its generated load plus each
upstream routed load times the **receiving** reach's attenuation
(`lookupQ attenuation r`), as the claim states; but in the baseline routing
loop of `lake_omapere_routing.py` each upstream contribution is multiplied
by the **upstream** reach's own attenuation (`lookupQ pat u`). -/
theorem routing_attenuation_convention (upstream_map net : List (ℕ × List ℕ))
    (attenuation pat tpgen : List (ℕ × ℚ)) (D : List ℕ) (generated : ℕ → ℚ)
    (pre post : List ℕ) (r : ℕ) (hr1 : r ∉ pre) (hr2 : r ∉ post)
    (hups_adv : ∀ u ∈ upsOf upstream_map r, u ∉ post ∧ u ≠ r)
    (hups_base : ∀ u ∈ upsOf net r, u ∉ post ∧ u ≠ r) :
    (route_loads_advanced upstream_map attenuation D generated (pre ++ r :: post) r =
        generated r +
          (((upsOf upstream_map r).filter (fun u => decide (u ∈ D))).map
            (fun u => route_loads_advanced upstream_map attenuation D generated
              (pre ++ r :: post) u * lookupQ attenuation r DEFAULT_ATTENUATION)).sum)
      ∧ (route_loads_baseline net pat tpgen (pre ++ r :: post) r =
        lookupQ tpgen r 0 +
          (((upsOf net r).filter (fun u => decide (u ∈ pre))).map
            (fun u => route_loads_baseline net pat tpgen (pre ++ r :: post) u *
              lookupQ pat u 1)).sum) :=
  ⟨route_loads_advanced_spec upstream_map attenuation D generated pre post r hr1 hr2 hups_adv,
   route_loads_baseline_spec net pat tpgen pre post r hr2 hups_base⟩

/-- Witness for C1 amended on the two-reach chain. -/
theorem routing_attenuation_convention_witness :
    ((2 : ℕ) ∉ ([1] : List ℕ) ∧ (2 : ℕ) ∉ ([] : List ℕ)
        ∧ (∀ u ∈ upsOf [(2, [1])] 2, u ∉ ([] : List ℕ) ∧ u ≠ 2)) ∧
      ((route_loads_advanced [(2, [1])] [(1, 1/2), (2, 1/4)] [1, 2]
          (fun x => if x = 1 then 10 else 5) ([1] ++ 2 :: []) 2 =
            (fun x => if x = 1 then (10 : ℚ) else 5) 2 +
              (((upsOf [(2, [1])] 2).filter (fun u => decide (u ∈ [1, 2]))).map
                (fun u => route_loads_advanced [(2, [1])] [(1, 1/2), (2, 1/4)] [1, 2]
                  (fun x => if x = 1 then 10 else 5) ([1] ++ 2 :: []) u *
                    lookupQ [(1, 1/2), (2, 1/4)] 2 DEFAULT_ATTENUATION)).sum)
        ∧ (route_loads_baseline [(2, [1])] [(1, 1/2), (2, 1/4)] [(1, 10), (2, 5)]
            ([1] ++ 2 :: []) 2 =
          lookupQ [(1, 10), (2, 5)] 2 0 +
            (((upsOf [(2, [1])] 2).filter (fun u => decide (u ∈ [1]))).map
              (fun u => route_loads_baseline [(2, [1])] [(1, 1/2), (2, 1/4)]
                [(1, 10), (2, 5)] ([1] ++ 2 :: []) u * lookupQ [(1, 1/2), (2, 1/4)] u 1)).sum)) :=
  ⟨⟨by decide, by decide, by decide⟩,
   routing_attenuation_convention [(2, [1])] [(2, [1])] [(1, 1/2), (2, 1/4)]
     [(1, 1/2), (2, 1/4)] [(1, 10), (2, 5)] [1, 2] (fun x => if x = 1 then 10 else 5)
     [1] [] 2 (by decide) (by decide) (by decide) (by decide)⟩

/-- C2 counterexample: the "simplified" `NetworkRouter.route_loads`
multiplies every generated load by `(1 + attenuation)` regardless of the
network, so a reach with no upstream neighbours (generated 10, default
attenuation 0.90) gets routed load 19, not 10. -/
theorem route_loads_simplified_cex :
    route_loads 10 (9/10) = 19 ∧ (19 : ℚ) ≠ 10 := by
  constructor
  · unfold route_loads; norm_num
  · norm_num

/-- C2 amended: a reach with no direct upstream neighbours routes exactly
its own generated load in the baseline routing loop and in
`route_loads_advanced`; the simplified `route_loads`, however, returns
`generated × (1 + attenuation)` for every reach, so equality fails there
whenever `generated × attenuation ≠ 0`. -/
theorem no_upstream_routes_generated (net upstream_map : List (ℕ × List ℕ))
    (pat tpgen attenuation : List (ℕ × ℚ)) (D : List ℕ) (generated : ℕ → ℚ)
    (order pre post : List ℕ) (r : ℕ) (hr2 : r ∉ post)
    (hups : upsOf net r = [])
    (hfind : upstream_map.find? (fun e => e.1 == r) = none) :
    route_loads_baseline net pat tpgen (pre ++ r :: post) r = lookupQ tpgen r 0
      ∧ route_loads_advanced upstream_map attenuation D generated order r = generated r
      ∧ (∀ g a : ℚ, route_loads g a = g * (1 + a)) := by
  refine ⟨?_, advRoute_no_entry upstream_map attenuation D r hfind order generated, ?_⟩
  · have h := route_loads_baseline_spec net pat tpgen pre post r hr2
      (by rw [hups]; intro u hu; exact absurd hu (List.not_mem_nil u))
    rw [hups] at h
    simpa using h
  · intro g a
    unfold route_loads
    ring

/-- Witness for C2 amended on a one-reach network. -/
theorem no_upstream_routes_generated_witness :
    ((1 : ℕ) ∉ ([] : List ℕ) ∧ upsOf [(1, [])] 1 = []
        ∧ ([] : List (ℕ × List ℕ)).find? (fun e => e.1 == 1) = none) ∧
      (route_loads_baseline [(1, [])] [(1, 1/2)] [(1, 10)] ([] ++ 1 :: []) 1 =
          lookupQ [(1, 10)] 1 0
        ∧ route_loads_advanced [] [(1, 1/2)] [1] (fun _ => 10) [1] 1 =
            (fun _ => (10 : ℚ)) 1
        ∧ (∀ g a : ℚ, route_loads g a = g * (1 + a))) :=
  ⟨⟨by decide, by decide, by decide⟩,
   no_upstream_routes_generated [(1, [])] [] [(1, 1/2)] [(1, 10)] [(1, 1/2)] [1]
     (fun _ => 10) [1] [] [] 1 (by decide) (by decide) (by decide)⟩

/-- C9 counterexample: with reach 1 upstream of reach 2 but given a
**larger** HYDSEQ (so the sorted order is [2, 1]), the baseline routing
loop does not stop or report anything: it proceeds and silently yields
routed(2) = 5, dropping the upstream contribution that the valid order
[1, 2] would include (routed(2) = 10). -/
theorem no_order_validation_cex :
    route_loads_baseline [(2, [1])] [(1, 1/2), (2, 1/4)] [(1, 10), (2, 5)] [2, 1] 2 = 5
      ∧ route_loads_baseline [(2, [1])] [(1, 1/2), (2, 1/4)] [(1, 10), (2, 5)] [1, 2] 2 = 10
      ∧ (5 : ℚ) ≠ 10 := by
  refine ⟨?_, ?_, by norm_num⟩ <;>
    simp [route_loads_baseline, routeStep, lookupQ, upsOf, List.find?_cons_of_neg,
      List.find?_cons_of_pos] <;> norm_num

/-- C9 amended: no validation of the hydrological sequence against the
edge list exists; the baseline routing loop always proceeds, and when none
of a reach's upstream neighbours have been processed yet (all have equal
or larger sequence number), the reach's routed load is silently just its
own generated load — every upstream contribution is dropped without any
error distinct from (or at all resembling) a reach-not-found report. -/
theorem routing_proceeds_dropping_late_upstreams (net : List (ℕ × List ℕ))
    (pat tpgen : List (ℕ × ℚ)) (pre post : List ℕ) (r : ℕ) (hr2 : r ∉ post)
    (hups : ∀ u ∈ upsOf net r, u ∉ pre) :
    route_loads_baseline net pat tpgen (pre ++ r :: post) r = lookupQ tpgen r 0 := by
  unfold route_loads_baseline
  rw [List.foldl_append]
  set M := pre.foldl (routeStep net pat tpgen) ⟨[], fun _ => 0⟩ with hM
  have hMproc : M.processed = pre := by
    rw [hM, route_foldl_processed]
    exact List.nil_append pre
  simp only [List.foldl_cons]
  rw [route_foldl_routed_notmem net pat tpgen post _ r hr2]
  have hfilter : (upsOf net r).filter (fun u => decide (u ∈ M.processed)) = [] := by
    apply filter_eq_nil_of_false
    intro u hu
    rw [hMproc]
    exact decide_eq_false (hups u hu)
  simp only [routeStep, hfilter, List.map_nil, List.sum_nil, if_pos rfl, if_true]
  exact add_zero _

/-- Witness for C9 amended: reach 2's only upstream (reach 1) is ordered
after it, and routing still proceeds, returning reach 2's generated load. -/
theorem routing_proceeds_dropping_late_upstreams_witness :
    ((2 : ℕ) ∉ ([1] : List ℕ) ∧ (∀ u ∈ upsOf [(2, [1])] 2, u ∉ ([] : List ℕ))) ∧
      route_loads_baseline [(2, [1])] [(1, 1/2), (2, 1/4)] [(1, 10), (2, 5)]
        ([] ++ 2 :: [1]) 2 = lookupQ [(1, 10), (2, 5)] 2 0 :=
  ⟨⟨by decide, by decide⟩,
   routing_proceeds_dropping_late_upstreams [(2, [1])] [(1, 1/2), (2, 1/4)]
     [(1, 10), (2, 5)] [] [1] 2 (by decide) (by decide)⟩

/-- The pandas inner merge on the key column (`NZSEGMENT`) used at the CW
coverage merge step of `main` in the PHASE2 script: each left row is paired
with every right row carrying the same key; left rows with no match
produce no output row. -/
def inner_merge {α β : Type} (left : List (ℕ × α)) (right : List (ℕ × β)) :
    List (ℕ × α × β) :=
  left.flatMap (fun la => (right.filter (fun rb => rb.1 == la.1)).map
    (fun rb => (la.1, la.2, rb.2)))

/-- C10: a reach present in the CLUES table but absent from the CW coverage
table yields no row at all after the inner merge — it is silently dropped,
not processed with a default coverage and not an error. -/
theorem clues_reach_without_coverage_dropped {α β : Type} (clues : List (ℕ × α))
    (cw_coverage : List (ℕ × β)) (r : ℕ) (hin : r ∈ clues.map Prod.fst)
    (hout : ∀ rb ∈ cw_coverage, rb.1 ≠ r) :
    ∀ row ∈ inner_merge clues cw_coverage, row.1 ≠ r := by
  intro row hrow
  unfold inner_merge at hrow
  rw [List.mem_flatMap] at hrow
  obtain ⟨la, hla, hrow2⟩ := hrow
  rw [List.mem_map] at hrow2
  obtain ⟨rb, hrb, hrbeq⟩ := hrow2
  obtain ⟨hrbmem, hrbkey⟩ := List.mem_filter.mp hrb
  intro hcontra
  apply hout rb hrbmem
  have h1 : rb.1 = la.1 := by
    have := of_decide_eq_true (by exact hrbkey)
    exact_mod_cast this
  have h2 : row.1 = la.1 := by rw [← hrbeq]
  rw [h1, ← h2, hcontra]

/-- Witness for C10: reach 7 is in the CLUES list, not in the coverage
list, and no merged row mentions it. -/
theorem clues_reach_without_coverage_dropped_witness :
    ((7 : ℕ) ∈ ([(7, (1 : ℚ)), (8, 2)].map Prod.fst)
        ∧ (∀ rb ∈ ([(8, (3 : ℚ))] : List (ℕ × ℚ)), rb.1 ≠ 7)) ∧
      (∀ row ∈ inner_merge [(7, (1 : ℚ)), (8, 2)] [(8, (3 : ℚ))], row.1 ≠ 7) :=
  ⟨⟨by decide, by decide⟩,
   clues_reach_without_coverage_dropped [(7, (1 : ℚ)), (8, 2)] [(8, (3 : ℚ))] 7
     (by decide) (by decide)⟩
